import Mathlib

/-!
Verification development for the Leviathan kernel simulator
(src/RECORD_2026-01-21/Leviathan_Kernel.cpp).

The C++ subsystems relevant to the claims are embedded shallowly:

* `KernelLogger::log` (bounded deque with front eviction) as `logPush` on a
  `List LogEntry`; the timestamp and thread tag of a `LogEntry` are omitted
  because no claim mentions them, and the `std::vformat` call is modelled by
  an `Option String` argument (`none` = formatting threw).
* `SlabAllocator` (free-list of object slots carved from pages) as
  `SlabState`; pointers are positive naturals (page index and slot index
  encoded), `0` plays the role of the null pointer, and the `size_t`
  live-object counter wraps modulo `2 ^ 64` exactly as `fetch_add`/`fetch_sub`
  do. The slots-per-page count `BlockSize / ObjectSize` is the parameter
  `cap` of the slab operations.
* `NetworkInterface` (receive ring) as head/tail indices plus a slot
  function; the ring capacity `LEVIATHAN_NET_RING_SIZE` is the parameter
  `cap`, packet payloads are byte functions and `memcpy` writes exactly
  `min (data.length) 128` bytes. The random id from `XorShift64::next` is an
  explicit argument. The C++ `std::array` slots are default-initialised PODs,
  so the initial slot contents are an arbitrary parameter.
* `TaskGraph` as an association list `TaskID × TaskContext` with unique keys;
  the `shared_ptr` aliasing of the C++ code (graph, scheduler and worker all
  mutate one heap object) is modelled by routing every mutation through the
  authoritative registry via `updateTask`. The atomic `u32` dependency
  counter wraps modulo `2 ^ 32` as `fetch_sub(1)` does. In
  `complete_task`, C++ applies `operator[]` to every dependent id; a
  dependent missing from the registry would dereference a null
  `shared_ptr` (undefined behaviour), so the embedding skips such an id and
  the theorems assume a well-formed registry instead.
* `MLFQScheduler` as four task lists, `ExecutionEngine::worker_loop` body as
  `runTaskStep` (the elapsed time between the two clock reads is an explicit
  argument, and the invoked work closure is represented by the outcome it
  produces: normal return, a thrown `std::exception`-derived failure, or a
  thrown value of any other type — C++ allows all three, and the worker
  barrier `catch (const std::exception& e)` matches only the second), and
  the `LeviathanKernel` facade as `KernelState` with `submit_task`.
-/

set_option maxRecDepth 4096

namespace Leviathan

/-- Log severity, from `enum class LogLevel`. -/
inductive LogLevel
  | TRACE
  | DEBUG
  | INFO
  | WARN
  | ERROR
  | CRITICAL
deriving DecidableEq

/-- One entry of the kernel log ring (`struct LogEntry`); the steady-clock
timestamp and thread id are not modelled since no claim refers to them. -/
structure LogEntry where
  level : LogLevel
  message : String
deriving DecidableEq

/-- `KernelLogger::max_buffer_size_`. -/
def max_buffer_size : Nat := 10000

/-- The buffer mutation of `KernelLogger::log`: evict the oldest entry when
the deque is at or above capacity, then append at the back. -/
def logPush (buf : List LogEntry) (e : LogEntry) : List LogEntry :=
  (if max_buffer_size ≤ buf.length then buf.drop 1 else buf) ++ [e]

/-- The message-formatting step of `KernelLogger::log`: `std::vformat` either
produces a string or throws, in which case the fixed diagnostic string is
substituted. -/
def formatMsg (r : Option String) : String :=
  r.getD ("LOG FORMAT ERROR")

/-- Whole `KernelLogger::log` buffer effect: format (with the fixed fallback)
and push. -/
def loggerLog (buf : List LogEntry) (lvl : LogLevel) (r : Option String) :
    List LogEntry :=
  logPush buf { level := lvl, message := formatMsg r }

/-- State of `SlabAllocator`: the free list (addresses of unused slots, head
first), the number of resident pages, and the `allocated_objects_` counter
(a `size_t`, kept below `2 ^ 64`). -/
structure SlabState where
  free_list : List Nat
  pages : Nat
  allocated_objects : Nat
deriving DecidableEq

/-- Addresses of the slots of one fresh page, in the order
`SlabAllocator::expand` threads them (slot 0 becomes the new head). Address
`pageIdx * cap + i + 1` encodes slot `i` of the page; it is never `0`, the
null pointer. -/
def pageSlots (cap pageIdx : Nat) : List Nat :=
  (List.range cap).map (fun i => pageIdx * cap + i + 1)

/-- `SlabAllocator::expand`: thread all slots of a new page into the free
list, the last slot pointing at the old head. -/
def slabExpand (cap : Nat) (s : SlabState) : SlabState :=
  { free_list := pageSlots cap s.pages ++ s.free_list
    pages := s.pages + 1
    allocated_objects := s.allocated_objects }

/-- `SlabAllocator::allocate`: expand when the free list is empty, then pop
the head and bump the live counter. The `[]` fallback is unreachable when
`cap ≥ 1` (a fresh page always yields slots). -/
def slabAllocate (cap : Nat) (s : SlabState) : Nat × SlabState :=
  let s1 := if s.free_list.isEmpty then slabExpand cap s else s
  match s1.free_list with
  | [] => (0, s1)
  | p :: rest =>
    (p, { s1 with
          free_list := rest
          allocated_objects := (s1.allocated_objects + 1) % 2 ^ 64 })

/-- `SlabAllocator::deallocate`: a null pointer is ignored; otherwise the
pointer is pushed onto the free-list head and the live counter decremented
(with `size_t` wraparound). -/
def slabDeallocate (s : SlabState) (p : Nat) : SlabState :=
  if p = 0 then s
  else
    { s with
      free_list := p :: s.free_list
      allocated_objects := (s.allocated_objects + (2 ^ 64 - 1)) % 2 ^ 64 }

/-- The state the `SlabAllocator` constructor builds: one `expand` from
nothing. -/
def initSlab (cap : Nat) : SlabState :=
  slabExpand cap { free_list := [], pages := 0, allocated_objects := 0 }

/-- Run `n` consecutive `allocate` calls, collecting the returned pointers in
call order. -/
def allocN (cap : Nat) : Nat → SlabState → List Nat × SlabState
  | 0, s => ([], s)
  | n + 1, s =>
    let r := slabAllocate cap s
    let rest := allocN cap n r.2
    (r.1 :: rest.1, rest.2)

/-- `struct Packet`; the 128-byte payload buffer is a byte function and
`size` the used length. -/
structure Packet where
  id : Nat
  src_ip : Nat
  dest_ip : Nat
  src_port : Nat
  dest_port : Nat
  payload : Nat → Nat
  size : Nat

/-- `NetworkInterface` receive-ring state: fixed slot array (as a function
from slot index) plus head and tail indices. -/
structure NetworkInterface where
  rx_ring : Nat → Packet
  rx_head : Nat
  rx_tail : Nat

/-- `LEVIATHAN_NET_RING_SIZE`. -/
def LEVIATHAN_NET_RING_SIZE : Nat := 2048

/-- `NetworkInterface::receive_packet`: compute `next = (head + 1) % cap`;
when `next = tail` drop the packet and return the ring-full warning;
otherwise overwrite the id, size and first `min (data.length) 128` payload
bytes of the head slot (the remaining slot fields keep their old values, as
after the C++ partial field assignment) and advance the head. The random
packet id is the explicit argument `newId`. -/
def receive_packet (cap : Nat) (n : NetworkInterface) (newId : Nat)
    (data : List Nat) : NetworkInterface × Option String :=
  let next_head := (n.rx_head + 1) % cap
  if next_head = n.rx_tail then
    (n, some ("[NET] RX Ring Buffer Overflow! Dropping packet."))
  else
    let old := n.rx_ring n.rx_head
    let p : Packet :=
      { old with
        id := newId
        size := min data.length 128
        payload := fun i =>
          if i < min data.length 128 then data.getD i 0 else old.payload i }
    ({ rx_ring := fun i => if i = n.rx_head then p else n.rx_ring i
       rx_head := next_head
       rx_tail := n.rx_tail }, none)

/-- `NetworkInterface::pop_packet`: empty when `head = tail`, otherwise copy
the tail slot out and advance the tail. -/
def pop_packet (cap : Nat) (n : NetworkInterface) :
    Option Packet × NetworkInterface :=
  if n.rx_head = n.rx_tail then (none, n)
  else (some (n.rx_ring n.rx_tail),
        { n with rx_tail := (n.rx_tail + 1) % cap })

/-- The queue depth computed by `NetworkInterface::stats`. -/
def netDepth (cap : Nat) (n : NetworkInterface) : Nat :=
  if n.rx_tail ≤ n.rx_head then n.rx_head - n.rx_tail
  else cap - n.rx_tail + n.rx_head

/-- Feed a list of `(id, data)` packets through `receive_packet`, counting
successful stores and drops. -/
def recvList (cap : Nat) (acc : NetworkInterface × Nat × Nat)
    (pkts : List (Nat × List Nat)) : NetworkInterface × Nat × Nat :=
  pkts.foldl
    (fun acc pkt =>
      let r := receive_packet cap acc.1 pkt.1 pkt.2
      match r.2 with
      | none => (r.1, acc.2.1 + 1, acc.2.2)
      | some _ => (r.1, acc.2.1, acc.2.2 + 1))
    acc

/-- A ring whose head and tail are both `0` (`rx_head_{0}`, `rx_tail_{0}` in
the C++ member initialisers); the slot array contents are the arbitrary
default-initialised POD values `slots0`. -/
def initNet (slots0 : Nat → Packet) : NetworkInterface :=
  { rx_ring := slots0, rx_head := 0, rx_tail := 0 }

/-- `using TaskID = uint64_t`. -/
abbrev TaskID := Nat

/-- `enum class TaskState`. -/
inductive TaskState
  | PENDING
  | READY
  | RUNNING
  | COMPLETED
  | FAILED
  | BLOCKED
deriving DecidableEq

/-- `enum class Priority { LOW = 0, NORMAL = 1, HIGH = 2, REALTIME = 3 }`. -/
inductive Priority
  | LOW
  | NORMAL
  | HIGH
  | REALTIME
deriving DecidableEq

/-- Outcome of invoking a task work closure. C++ permits throwing values of
any type; the worker barrier is `catch (const std::exception& e)`, which
matches only failures derived from `std::exception`. So three outcomes are
possible: a normal return (`ok`), a thrown `std::exception`-derived failure
carrying a message (`fail` — the only kind the catch clause matches), and a
thrown value of any other type (`foreign`), which the catch clause does not
match and which therefore escapes the barrier. -/
inductive WorkResult
  | ok
  | fail (msg : String)
  | foreign
deriving DecidableEq

/-- `struct TaskContext`; the creation timestamp and the register array are
not modelled (no claim mentions them), and the work closure is represented
by the outcome it produces when invoked. -/
structure TaskContext where
  id : TaskID
  priority : Priority
  state : TaskState
  work : WorkResult
  dependencies : List TaskID
  unsatisfied_deps : Nat
  dependents : List TaskID
  cpu_time_ns : Nat
deriving DecidableEq

/-- The `TaskContext` constructor: `PENDING`, empty edge lists, zero counter,
zero accumulated cpu time. -/
def mkTaskContext (i : TaskID) (p : Priority) (w : WorkResult) : TaskContext :=
  { id := i
    priority := p
    state := TaskState.PENDING
    work := w
    dependencies := []
    unsatisfied_deps := 0
    dependents := []
    cpu_time_ns := 0 }

/-- The task registry `std::unordered_map<TaskID, shared_ptr<TaskContext>>`,
as an association list with unique keys. -/
abbrev TaskGraph := List (TaskID × TaskContext)

/-- Registry lookup (`tasks_.contains` / `tasks_[tid]` reads). -/
def lookupTask : TaskGraph → TaskID → Option TaskContext
  | [], _ => none
  | (i, t) :: rest, tid => if i = tid then some t else lookupTask rest tid

/-- `tasks_.contains tid`. -/
def containsTask (g : TaskGraph) (tid : TaskID) : Bool :=
  (lookupTask g tid).isSome

/-- Mutation of the context registered under `tid` (what a write through the
shared pointer `tasks_[tid]` does). -/
def updateTask (g : TaskGraph) (tid : TaskID) (f : TaskContext → TaskContext) :
    TaskGraph :=
  g.map (fun p => if p.1 = tid then (p.1, f p.2) else p)

/-- `TaskGraph::add_task`: `tasks_[t->id] = t` — inserts, or overwrites the
entry already registered under the id. -/
def add_task (g : TaskGraph) (t : TaskContext) : TaskGraph :=
  if containsTask g t.id then updateTask g t.id (fun _ => t)
  else g ++ [(t.id, t)]

/-- `TaskGraph::add_dependency`: when both ids are registered, append `child`
to the dependents of `parent`, append `parent` to the dependencies of
`child`, increment the `u32` counter of `child` and set its state to
`BLOCKED`; otherwise do nothing. -/
def add_dependency (g : TaskGraph) (parent child : TaskID) : TaskGraph :=
  if containsTask g parent && containsTask g child then
    let g1 := updateTask g parent
      (fun t => { t with dependents := t.dependents ++ [child] })
    updateTask g1 child
      (fun t => { t with
                  dependencies := t.dependencies ++ [parent]
                  unsatisfied_deps := (t.unsatisfied_deps + 1) % 2 ^ 32
                  state := TaskState.BLOCKED })
  else g

/-- Effect of one loop iteration of `TaskGraph::complete_task` on a
dependent: `fetch_sub(1)` on the `u32` counter, and `READY` exactly when the
value before the decrement was `1`. -/
def decTask (t : TaskContext) : TaskContext :=
  { t with
    unsatisfied_deps := (t.unsatisfied_deps + (2 ^ 32 - 1)) % 2 ^ 32
    state := if t.unsatisfied_deps = 1 then TaskState.READY else t.state }

/-- The contribution of a dependent `d` to the unlocked list of
`TaskGraph::complete_task` on graph `g`: its decremented context when its
counter stood at `1`, nothing otherwise. -/
def readyOf (g : TaskGraph) (d : TaskID) : Option TaskContext :=
  (lookupTask g d).bind
    (fun dep =>
      if dep.unsatisfied_deps = 1 then some (decTask dep) else none)

/-- One iteration of the dependent loop of `TaskGraph::complete_task`:
decrement the counter of `dep_id`, and when it hits zero mark the dependent
`READY` and append it to the unlocked list. A dependent id missing from the
registry is undefined behaviour in the C++ (null `shared_ptr` dereference)
and is skipped here. -/
def releaseStep (acc : List TaskContext × TaskGraph) (dep_id : TaskID) :
    List TaskContext × TaskGraph :=
  match lookupTask acc.2 dep_id with
  | none => acc
  | some dep =>
    ((if dep.unsatisfied_deps = 1 then acc.1 ++ [decTask dep] else acc.1),
     updateTask acc.2 dep_id (fun _ => decTask dep))

/-- `TaskGraph::complete_task`: an unregistered id yields the empty list and
an untouched registry; otherwise every dependent of `tid` is processed by
`releaseStep` in list order. -/
def complete_task (g : TaskGraph) (tid : TaskID) :
    List TaskContext × TaskGraph :=
  match lookupTask g tid with
  | none => ([], g)
  | some t => t.dependents.foldl releaseStep ([], g)

/-- `MLFQScheduler`: four FIFO queues, band 0 = REALTIME … band 3 = LOW. -/
structure MLFQScheduler where
  q0 : List TaskContext
  q1 : List TaskContext
  q2 : List TaskContext
  q3 : List TaskContext
deriving DecidableEq

/-- The priority-to-band mapping of `MLFQScheduler::submit`
(`RT->0, HIGH->1, NORMAL->2, LOW->3`). -/
def bandOf : Priority → Nat
  | Priority.REALTIME => 0
  | Priority.HIGH => 1
  | Priority.NORMAL => 2
  | Priority.LOW => 3

/-- Read one band queue of the scheduler. -/
def getQueue (s : MLFQScheduler) : Nat → List TaskContext
  | 0 => s.q0
  | 1 => s.q1
  | 2 => s.q2
  | _ => s.q3

/-- `MLFQScheduler::submit`: append at the tail of the queue selected by the
task priority. -/
def schedSubmit (s : MLFQScheduler) (t : TaskContext) : MLFQScheduler :=
  match bandOf t.priority with
  | 0 => { s with q0 := s.q0 ++ [t] }
  | 1 => { s with q1 := s.q1 ++ [t] }
  | 2 => { s with q2 := s.q2 ++ [t] }
  | _ => { s with q3 := s.q3 ++ [t] }

/-- `MLFQScheduler::get_next`: scan bands 0 → 3 and pop the head of the
first non-empty queue; `none` when all four are empty. -/
def get_next (s : MLFQScheduler) : Option TaskContext × MLFQScheduler :=
  match s.q0 with
  | t :: rest => (some t, { s with q0 := rest })
  | [] =>
    match s.q1 with
    | t :: rest => (some t, { s with q1 := rest })
    | [] =>
      match s.q2 with
      | t :: rest => (some t, { s with q2 := rest })
      | [] =>
        match s.q3 with
        | t :: rest => (some t, { s with q3 := rest })
        | [] => (none, s)

/-- `MLFQScheduler::requeue`: identical to `submit` (the demotion hook is
empty in the source). -/
def requeue (s : MLFQScheduler) (t : TaskContext) : MLFQScheduler :=
  schedSubmit s t

/-- The per-task body of `ExecutionEngine::worker_loop`, once the worker
holds task `tid`: set `RUNNING`, then invoke the work closure inside
`try { work(); state = COMPLETED; } catch (const std::exception& e)
{ state = FAILED; LOG_ERR(...); }`. A normal return or a caught
`std::exception` falls through to the code after the barrier: the elapsed
time is accumulated into `cpu_time_ns` (`u64` wraparound) and dependents
are released through `TaskGraph::complete_task`. A thrown value that is not
derived from `std::exception` (`WorkResult.foreign`) does not match the
catch clause: it propagates out of `worker_loop` — the task is left
`RUNNING`, no time is accumulated, nothing is logged and no dependents are
released (escaping the thread start function calls `std::terminate`).
Returns the final registry, the newly-ready dependents (which the worker
hands back to the scheduler), the emitted log line if any, and whether the
exception escaped the barrier. -/
def runTaskStep (g : TaskGraph) (tid : TaskID) (elapsed : Nat) :
    TaskGraph × List TaskContext × Option (LogLevel × String) × Bool :=
  match lookupTask g tid with
  | none => (g, [], none, false)
  | some t =>
    let g1 := updateTask g tid (fun u => { u with state := TaskState.RUNNING })
    match t.work with
    | WorkResult.foreign => (g1, [], none, true)
    | WorkResult.ok =>
      let g2 := updateTask g1 tid
        (fun u => { u with
                    state := TaskState.COMPLETED
                    cpu_time_ns := (u.cpu_time_ns + elapsed) % 2 ^ 64 })
      let r := complete_task g2 tid
      (r.2, r.1, none, false)
    | WorkResult.fail m =>
      let g2 := updateTask g1 tid
        (fun u => { u with
                    state := TaskState.FAILED
                    cpu_time_ns := (u.cpu_time_ns + elapsed) % 2 ^ 64 })
      let r := complete_task g2 tid
      (r.2, r.1,
       some (LogLevel.ERROR, "Task " ++ toString tid ++ " Failed: " ++ m),
       false)

/-- The parts of `LeviathanKernel` state the claims touch: the graph, the
scheduler and the `id_gen_` counter (a `u64`). -/
structure KernelState where
  graph : TaskGraph
  scheduler : MLFQScheduler
  id_gen : Nat
deriving DecidableEq

/-- `LeviathanKernel::submit_task`: take a fresh id from `id_gen_`
(`fetch_add` returns the old value), construct the context, register it,
mark it `READY` through the shared pointer (so the registry entry changes
too) and submit it to the scheduler — unconditionally; the function has no
dependency-list parameter. -/
def submit_task (k : KernelState) (p : Priority) (w : WorkResult) :
    KernelState :=
  let tid := k.id_gen
  let t := mkTaskContext tid p w
  let g1 := add_task k.graph t
  let t2 := { t with state := TaskState.READY }
  let g2 := updateTask g1 tid (fun _ => t2)
  { graph := g2
    scheduler := schedSubmit k.scheduler t2
    id_gen := (k.id_gen + 1) % 2 ^ 64 }

/-- Modelled from the spec: the facade submit the specification describes,
`submit(priority, work, deps=[])` — allocate a TaskId, construct a
TaskContext, register it in the graph, apply each dependency edge, and if
unblocked (unsatisfied-count zero) mark READY and submit to the scheduler.
This operation is absent from the source (`LeviathanKernel::submit_task`
takes no dependency list); it exists only to be compared with
`submit_task`. -/
def submit_task_specModel (k : KernelState) (p : Priority) (w : WorkResult)
    (deps : List TaskID) : KernelState :=
  let tid := k.id_gen
  let t := mkTaskContext tid p w
  let g1 := add_task k.graph t
  let g2 := deps.foldl (fun g d => add_dependency g d tid) g1
  match lookupTask g2 tid with
  | none =>
    { graph := g2, scheduler := k.scheduler, id_gen := (k.id_gen + 1) % 2 ^ 64 }
  | some t2 =>
    if t2.unsatisfied_deps = 0 then
      let t3 := { t2 with state := TaskState.READY }
      { graph := updateTask g2 tid (fun _ => t3)
        scheduler := schedSubmit k.scheduler t3
        id_gen := (k.id_gen + 1) % 2 ^ 64 }
    else
      { graph := g2, scheduler := k.scheduler, id_gen := (k.id_gen + 1) % 2 ^ 64 }

/-! Concrete fixtures used by the witness and counterexample theorems. -/

/-- A default-initialised packet slot for concrete ring computations. -/
def blankPacket : Packet :=
  { id := 0, src_ip := 0, dest_ip := 0, src_port := 0, dest_port := 0
    payload := fun _ => 0, size := 0 }

/-- Fixture: parent task 1 with dependents 2 and 3. -/
def t1fix : TaskContext :=
  { mkTaskContext 1 Priority.NORMAL WorkResult.ok with dependents := [2, 3] }

/-- Fixture: dependent task 2, one unsatisfied dependency. -/
def t2fix : TaskContext :=
  { mkTaskContext 2 Priority.NORMAL WorkResult.ok with
    dependencies := [1], unsatisfied_deps := 1, state := TaskState.BLOCKED }

/-- Fixture: dependent task 3, two unsatisfied dependencies. -/
def t3fix : TaskContext :=
  { mkTaskContext 3 Priority.NORMAL WorkResult.ok with
    dependencies := [1], unsatisfied_deps := 2, state := TaskState.BLOCKED }

/-- Fixture graph for the completion claims: 1 → 2 and 1 → 3. -/
def gFix : TaskGraph := [(1, t1fix), (2, t2fix), (3, t3fix)]

/-- Fixture: a task whose work closure throws, with dependent 2. -/
def tFailFix : TaskContext :=
  { mkTaskContext 1 Priority.NORMAL (WorkResult.fail ("boom")) with
    dependents := [2] }

/-- Fixture graph for the worker-failure claim. -/
def gFailFix : TaskGraph := [(1, tFailFix), (2, t2fix)]

/-- Fixture: a task whose work closure throws a value not derived from
`std::exception`, with dependent 2. -/
def tForeignFix : TaskContext :=
  { mkTaskContext 1 Priority.NORMAL WorkResult.foreign with dependents := [2] }

/-- Fixture graph for the uncaught-throw counterexample. -/
def gForeignFix : TaskGraph := [(1, tForeignFix), (2, t2fix)]

/-- Fixture: a second context sharing id 1 (different priority). -/
def tDupFix : TaskContext := mkTaskContext 1 Priority.HIGH WorkResult.ok

/-- Fixture graph holding only task 1. -/
def gOneFix : TaskGraph := [(1, mkTaskContext 1 Priority.NORMAL WorkResult.ok)]

/-- Fixture: a child already in a terminal state. -/
def tDoneFix : TaskContext :=
  { mkTaskContext 2 Priority.NORMAL WorkResult.ok with
    state := TaskState.COMPLETED }

/-- Fixture graph: pending parent 1, completed child 2. -/
def gTermFix : TaskGraph :=
  [(1, mkTaskContext 1 Priority.NORMAL WorkResult.ok), (2, tDoneFix)]

/-- Fixture: empty scheduler. -/
def emptySched : MLFQScheduler := { q0 := [], q1 := [], q2 := [], q3 := [] }

/-- Fixture: a NORMAL-band task used in the scheduler witness. -/
def tSchedFix : TaskContext := mkTaskContext 7 Priority.NORMAL WorkResult.ok

/-- Fixture scheduler: only the NORMAL band (index 2) is occupied. -/
def schedFix : MLFQScheduler :=
  { q0 := [], q1 := [], q2 := [tSchedFix], q3 := [] }

/-- Fixture kernel: one registered, incomplete task (id 1), generator at 2. -/
def kFix : KernelState :=
  { graph := gOneFix, scheduler := emptySched, id_gen := 2 }

/-! Helper lemmas about the registry. -/

/-- Lookup after a registry mutation: the mutated id reads back through `f`,
every other id is untouched. -/
theorem lookupTask_updateTask (tid j : TaskID) (f : TaskContext → TaskContext)
    (g : TaskGraph) :
    lookupTask (updateTask g tid f) j =
      if j = tid then (lookupTask g tid).map f else lookupTask g j := by
  induction g with
  | nil =>
    show (none : Option TaskContext)
        = if j = tid then Option.map f none else none
    split <;> rfl
  | cons p rest ih =>
    obtain ⟨i, t⟩ := p
    show lookupTask
        ((if i = tid then (i, f t) else (i, t)) :: updateTask rest tid f) j = _
    by_cases hit : i = tid
    · subst hit
      rw [if_pos rfl]
      show (if i = j then some (f t) else lookupTask (updateTask rest i f) j)
          = if j = i then (lookupTask ((i, t) :: rest) i).map f
            else lookupTask ((i, t) :: rest) j
      by_cases hij : i = j
      · subst hij
        simp [lookupTask]
      · have hji : ¬ j = i := fun h => hij h.symm
        rw [if_neg hij, ih, if_neg hji, if_neg hji]
        show lookupTask rest j = if i = j then some t else lookupTask rest j
        rw [if_neg hij]
    · rw [if_neg hit]
      show (if i = j then some t else lookupTask (updateTask rest tid f) j)
          = if j = tid then (lookupTask ((i, t) :: rest) tid).map f
            else lookupTask ((i, t) :: rest) j
      have h1 : lookupTask ((i, t) :: rest) tid = lookupTask rest tid := by
        show (if i = tid then some t else lookupTask rest tid) = _
        rw [if_neg hit]
      by_cases hij : i = j
      · subst hij
        have hjt : ¬ i = tid := hit
        rw [if_pos rfl, if_neg hjt]
        show some t = lookupTask ((i, t) :: rest) i
        show some t = if i = i then some t else lookupTask rest i
        rw [if_pos rfl]
      · rw [if_neg hij, ih, h1]
        have h2 : lookupTask ((i, t) :: rest) j = lookupTask rest j := by
          show (if i = j then some t else lookupTask rest j) = _
          rw [if_neg hij]
        rw [h2]

/-- Lookup distributes over append when the left part misses the id. -/
theorem lookupTask_append_of_none (g h : TaskGraph) (j : TaskID)
    (h0 : lookupTask g j = none) :
    lookupTask (g ++ h) j = lookupTask h j := by
  induction g with
  | nil => rfl
  | cons p rest ih =>
    obtain ⟨i, t⟩ := p
    by_cases hij : i = j
    · simp [lookupTask, hij] at h0
    · simp only [lookupTask, if_neg hij] at h0
      simpa [lookupTask, hij] using ih h0

/-- Lookup distributes over append when the left part already has the id. -/
theorem lookupTask_append_of_some (g h : TaskGraph) (j : TaskID)
    (t : TaskContext) (h0 : lookupTask g j = some t) :
    lookupTask (g ++ h) j = some t := by
  induction g with
  | nil => simp [lookupTask] at h0
  | cons p rest ih =>
    obtain ⟨i, u⟩ := p
    by_cases hij : i = j
    · simp only [lookupTask, if_pos hij] at h0 ⊢
      simpa using h0
    · simp only [lookupTask, if_neg hij] at h0 ⊢
      exact ih h0

/-- `add_task` always reads back the registered context at its id. -/
theorem lookupTask_add_task_self (g : TaskGraph) (t : TaskContext) :
    lookupTask (add_task g t) t.id = some t := by
  unfold add_task containsTask
  cases h : lookupTask g t.id with
  | none => simp [lookupTask_append_of_none g _ t.id h, lookupTask]
  | some u => simp [lookupTask_updateTask, h]

/-- `add_task` leaves every other id untouched. -/
theorem lookupTask_add_task_other (g : TaskGraph) (t : TaskContext)
    (j : TaskID) (hj : j ≠ t.id) :
    lookupTask (add_task g t) j = lookupTask g j := by
  unfold add_task containsTask
  cases h : lookupTask g t.id with
  | none =>
    rw [if_neg (by decide : ¬ ((none : Option TaskContext).isSome = true))]
    cases hgj : lookupTask g j with
    | none =>
      rw [lookupTask_append_of_none g _ j hgj]
      show (if t.id = j then some t else none) = none
      rw [if_neg (fun hh => hj hh.symm)]
    | some u => simp [lookupTask_append_of_some g _ j u hgj]
  | some u => simp [lookupTask_updateTask, h, hj]

/-! Helper lemmas about the dependent-release fold of `complete_task`. -/

/-- Ids outside the processed list are untouched by the release fold. -/
theorem releaseFold_not_mem (L : List TaskID) :
    ∀ (g : TaskGraph) (acc : List TaskContext) (j : TaskID), j ∉ L →
    lookupTask (L.foldl releaseStep (acc, g)).2 j = lookupTask g j := by
  induction L with
  | nil => intro g acc j _; rfl
  | cons d L ih =>
    intro g acc j hj
    have hjd : j ≠ d := fun h => hj (h ▸ List.mem_cons_self d L)
    have hjL : j ∉ L := fun h => hj (List.mem_cons_of_mem d h)
    rw [List.foldl_cons]
    cases hld : lookupTask g d with
    | none =>
      have : releaseStep (acc, g) d = (acc, g) := by simp [releaseStep, hld]
      rw [this]
      exact ih g acc j hjL
    | some dep =>
      have : releaseStep (acc, g) d =
          ((if dep.unsatisfied_deps = 1 then acc ++ [decTask dep] else acc),
           updateTask g d (fun _ => decTask dep)) := by
        simp [releaseStep, hld]
      rw [this, ih _ _ j hjL, lookupTask_updateTask]
      simp [hjd]

/-- Every processed dependent ends up decremented (given unique ids and a
well-formed registry). -/
theorem releaseFold_mem (L : List TaskID) :
    ∀ (g : TaskGraph) (acc : List TaskContext) (d : TaskID), L.Nodup →
    (∀ e ∈ L, (lookupTask g e).isSome) → d ∈ L →
    lookupTask (L.foldl releaseStep (acc, g)).2 d =
      (lookupTask g d).map decTask := by
  induction L with
  | nil => intro g acc d _ _ hd; exact absurd hd (List.not_mem_nil d)
  | cons e L ih =>
    intro g acc d hnd hreg hd
    obtain ⟨heL, hndL⟩ := List.nodup_cons.mp hnd
    obtain ⟨dep, hdep⟩ := Option.isSome_iff_exists.mp
      (hreg e (List.mem_cons_self e L))
    have hstep : releaseStep (acc, g) e =
        ((if dep.unsatisfied_deps = 1 then acc ++ [decTask dep] else acc),
         updateTask g e (fun _ => decTask dep)) := by
      simp [releaseStep, hdep]
    rw [List.foldl_cons, hstep]
    have hreg' : ∀ x ∈ L,
        (lookupTask (updateTask g e (fun _ => decTask dep)) x).isSome := by
      intro x hx
      have hxe : x ≠ e := fun h => heL (h ▸ hx)
      rw [lookupTask_updateTask]
      simp only [if_neg hxe]
      exact hreg x (List.mem_cons_of_mem e hx)
    rcases List.mem_cons.mp hd with hde | hdL
    · subst hde
      rw [releaseFold_not_mem L _ _ d heL, lookupTask_updateTask]
      simp [hdep]
    · have hde : d ≠ e := fun h => heL (h ▸ hdL)
      rw [ih _ _ d hndL hreg' hdL, lookupTask_updateTask]
      simp [hde]

/-- The unlocked list produced by the release fold: the accumulator followed
by the dependents whose counter stood at `1`, in list order, in their
decremented (READY) form. -/
theorem releaseFold_released (L : List TaskID) :
    ∀ (g : TaskGraph) (acc : List TaskContext), L.Nodup →
    (∀ e ∈ L, (lookupTask g e).isSome) →
    (L.foldl releaseStep (acc, g)).1 = acc ++ L.filterMap (readyOf g) := by
  induction L with
  | nil => intro g acc _ _; simp
  | cons e L ih =>
    intro g acc hnd hreg
    obtain ⟨heL, hndL⟩ := List.nodup_cons.mp hnd
    obtain ⟨dep, hdep⟩ := Option.isSome_iff_exists.mp
      (hreg e (List.mem_cons_self e L))
    have hstep : releaseStep (acc, g) e =
        ((if dep.unsatisfied_deps = 1 then acc ++ [decTask dep] else acc),
         updateTask g e (fun _ => decTask dep)) := by
      simp [releaseStep, hdep]
    rw [List.foldl_cons, hstep]
    have hreg' : ∀ x ∈ L,
        (lookupTask (updateTask g e (fun _ => decTask dep)) x).isSome := by
      intro x hx
      have hxe : x ≠ e := fun h => heL (h ▸ hx)
      rw [lookupTask_updateTask]
      simp only [if_neg hxe]
      exact hreg x (List.mem_cons_of_mem e hx)
    rw [ih _ _ hndL hreg']
    have hcong : L.filterMap (readyOf (updateTask g e (fun _ => decTask dep)))
        = L.filterMap (readyOf g) := by
      apply List.filterMap_congr
      intro x hx
      have hxe : x ≠ e := fun h => heL (h ▸ hx)
      unfold readyOf
      rw [lookupTask_updateTask]
      simp [hxe]
    rw [hcong, List.filterMap_cons]
    unfold readyOf
    rw [hdep]
    by_cases h1 : dep.unsatisfied_deps = 1 <;> simp [h1]

/-! Helper lemmas about the log buffer. -/

/-- One push preserves the last-`capacity`-messages normal form. -/
theorem logPush_drop (ms : List LogEntry) (e : LogEntry) :
    logPush (ms.drop (ms.length - max_buffer_size)) e =
      (ms ++ [e]).drop ((ms ++ [e]).length - max_buffer_size) := by
  have hmax : max_buffer_size = 10000 := rfl
  have hlapp : (ms ++ [e]).length = ms.length + 1 := by
    rw [List.length_append, List.length_cons, List.length_nil]
  unfold logPush
  by_cases h : max_buffer_size ≤ ms.length
  · have hlen : (ms.drop (ms.length - max_buffer_size)).length
        = max_buffer_size := by
      rw [List.length_drop]; omega
    rw [if_pos (le_of_eq hlen.symm), List.drop_drop]
    rw [List.drop_append_of_le_length (by rw [hlapp, hmax]; rw [hmax] at h; omega)]
    have hidx : ms.length - max_buffer_size + 1
        = (ms ++ [e]).length - max_buffer_size := by
      rw [hlapp, hmax]; rw [hmax] at h; omega
    rw [hidx]
  · have h0 : ms.length - max_buffer_size = 0 := by omega
    have h1 : (ms ++ [e]).length - max_buffer_size = 0 := by
      rw [hlapp, hmax]; rw [hmax] at h; omega
    rw [h0, List.drop_zero, h1, List.drop_zero,
      if_neg (by omega : ¬ max_buffer_size ≤ ms.length)]

/-- Folding pushes from the empty buffer keeps exactly the last
`max_buffer_size` entries, in insertion order. -/
theorem logFold (entries : List LogEntry) :
    List.foldl logPush [] entries
      = entries.drop (entries.length - max_buffer_size) := by
  induction entries using List.reverseRecOn with
  | nil => rfl
  | append_singleton ms e ih =>
    rw [List.foldl_append, List.foldl_cons, List.foldl_nil, ih, logPush_drop]

/-! Helper lemmas about the slab allocator. -/

/-- Fresh page slots are never the null pointer. -/
theorem pageSlots_nonzero (cap pg : Nat) : ∀ q ∈ pageSlots cap pg, q ≠ 0 := by
  intro q hq
  simp only [pageSlots, List.mem_map, List.mem_range] at hq
  obtain ⟨i, _, rfl⟩ := hq
  omega

/-- A fresh page yields exactly `cap` slots. -/
theorem pageSlots_length (cap pg : Nat) : (pageSlots cap pg).length = cap := by
  simp [pageSlots]

/-- One `allocate` call: the returned pointer is non-null, the free-list
null-freedom invariant is preserved, and the live counter advances by one
(modulo `2 ^ 64`). -/
theorem slabAllocate_spec (cap : Nat) (hcap : 1 ≤ cap) (s : SlabState)
    (hs : ∀ q ∈ s.free_list, q ≠ 0) :
    (slabAllocate cap s).1 ≠ 0 ∧
    (∀ q ∈ (slabAllocate cap s).2.free_list, q ≠ 0) ∧
    (slabAllocate cap s).2.allocated_objects
      = (s.allocated_objects + 1) % 2 ^ 64 := by
  obtain ⟨fl, pg, ao⟩ := s
  cases fl with
  | nil =>
    cases hps : pageSlots cap pg with
    | nil =>
      exfalso
      have hl := pageSlots_length cap pg
      rw [hps] at hl
      simp at hl
      omega
    | cons p rest =>
      have hred : slabAllocate cap ⟨[], pg, ao⟩ =
          (p, { free_list := rest, pages := pg + 1,
                allocated_objects := (ao + 1) % 2 ^ 64 }) := by
        unfold slabAllocate slabExpand
        simp [hps]
      rw [hred]
      refine ⟨?_, ?_, rfl⟩
      · exact pageSlots_nonzero cap pg p (hps ▸ List.mem_cons_self p rest)
      · intro q hq
        exact pageSlots_nonzero cap pg q (hps ▸ List.mem_cons_of_mem p hq)
  | cons p rest =>
    have hred : slabAllocate cap ⟨p :: rest, pg, ao⟩ =
        (p, { free_list := rest, pages := pg,
              allocated_objects := (ao + 1) % 2 ^ 64 }) := by
      unfold slabAllocate
      simp
    rw [hred]
    refine ⟨hs p (List.mem_cons_self p rest), ?_, rfl⟩
    intro q hq
    exact hs q (List.mem_cons_of_mem p hq)

/-- `n` consecutive `allocate` calls: all returned pointers are non-null,
the invariant is preserved, the live counter advances by `n` (modulo
`2 ^ 64`) and exactly `n` pointers are returned. -/
theorem allocN_spec (cap : Nat) (hcap : 1 ≤ cap) :
    ∀ (n : Nat) (s : SlabState), (∀ q ∈ s.free_list, q ≠ 0) →
    s.allocated_objects < 2 ^ 64 →
    (∀ p ∈ (allocN cap n s).1, p ≠ 0) ∧
    (∀ q ∈ (allocN cap n s).2.free_list, q ≠ 0) ∧
    (allocN cap n s).2.allocated_objects
      = (s.allocated_objects + n) % 2 ^ 64 ∧
    (allocN cap n s).1.length = n := by
  intro n
  induction n with
  | zero =>
    intro s hs hb
    refine ⟨by intro p hp; simp [allocN] at hp, hs, ?_, rfl⟩
    show s.allocated_objects = (s.allocated_objects + 0) % 2 ^ 64
    rw [Nat.add_zero, Nat.mod_eq_of_lt hb]
  | succ n ih =>
    intro s hs hb
    obtain ⟨h1, h2, h3⟩ := slabAllocate_spec cap hcap s hs
    have hb2 : (slabAllocate cap s).2.allocated_objects < 2 ^ 64 := by
      rw [h3]
      exact Nat.mod_lt _ (by norm_num)
    obtain ⟨ih1, ih2, ih3, ih4⟩ := ih (slabAllocate cap s).2 h2 hb2
    refine ⟨?_, ih2, ?_, ?_⟩
    · intro p hp
      simp only [allocN, List.mem_cons] at hp
      rcases hp with rfl | hp
      · exact h1
      · exact ih1 p hp
    · show (allocN cap n (slabAllocate cap s).2).2.allocated_objects = _
      rw [ih3, h3, Nat.mod_add_mod]
      congr 1
      omega
    · show (allocN cap n (slabAllocate cap s).2).1.length + 1 = n + 1
      rw [ih4]

/-- Folding `deallocate` over a list of non-null pointers decrements the
live counter once per pointer (with `size_t` wraparound). -/
theorem deallocFold_counter (qs : List Nat) :
    ∀ s : SlabState, (∀ p ∈ qs, p ≠ 0) → s.allocated_objects < 2 ^ 64 →
    (qs.foldl slabDeallocate s).allocated_objects
      = (s.allocated_objects + (2 ^ 64 - 1) * qs.length) % 2 ^ 64 := by
  induction qs with
  | nil =>
    intro s _ hb
    show s.allocated_objects
      = (s.allocated_objects + (2 ^ 64 - 1) * ([] : List Nat).length) % 2 ^ 64
    rw [List.length_nil, Nat.mul_zero, Nat.add_zero, Nat.mod_eq_of_lt hb]
  | cons p qs ih =>
    intro s hq hb
    have hp : p ≠ 0 := hq p (List.mem_cons_self p qs)
    have hstep : slabDeallocate s p =
        { s with
          free_list := p :: s.free_list
          allocated_objects :=
            (s.allocated_objects + (2 ^ 64 - 1)) % 2 ^ 64 } := by
      unfold slabDeallocate
      rw [if_neg hp]
    rw [List.foldl_cons, hstep,
      ih _ (fun x hx => hq x (List.mem_cons_of_mem p hx))
        (Nat.mod_lt _ (by norm_num))]
    show ((s.allocated_objects + (2 ^ 64 - 1)) % 2 ^ 64
        + (2 ^ 64 - 1) * qs.length) % 2 ^ 64
      = (s.allocated_objects + (2 ^ 64 - 1) * (qs.length + 1)) % 2 ^ 64
    rw [Nat.mod_add_mod, Nat.mul_succ]
    congr 1
    omega

/-! Helper lemmas about the receive ring. -/

/-- Unfolding one trailing receive call of `recvList`. -/
theorem recvList_append_single (cap : Nat) (acc : NetworkInterface × Nat × Nat)
    (ms : List (Nat × List Nat)) (pkt : Nat × List Nat) :
    recvList cap acc (ms ++ [pkt]) =
      match (receive_packet cap (recvList cap acc ms).1 pkt.1 pkt.2).2 with
      | none => ((receive_packet cap (recvList cap acc ms).1 pkt.1 pkt.2).1,
                 (recvList cap acc ms).2.1 + 1, (recvList cap acc ms).2.2)
      | some _ => ((receive_packet cap (recvList cap acc ms).1 pkt.1 pkt.2).1,
                 (recvList cap acc ms).2.1, (recvList cap acc ms).2.2 + 1) := by
  unfold recvList
  rw [List.foldl_append, List.foldl_cons, List.foldl_nil]

/-- Receiving a packet list into an initially-empty ring: the head advances
to `min N (cap − 1)`, the tail stays at `0`, exactly `min N (cap − 1)`
packets are stored and the remaining `N − (cap − 1)` are dropped. -/
theorem recvList_from_empty (cap : Nat) (hcap : 1 ≤ cap)
    (slots0 : Nat → Packet) (pkts : List (Nat × List Nat)) :
    (recvList cap (initNet slots0, 0, 0) pkts).1.rx_head
      = min pkts.length (cap - 1) ∧
    (recvList cap (initNet slots0, 0, 0) pkts).1.rx_tail = 0 ∧
    (recvList cap (initNet slots0, 0, 0) pkts).2.1
      = min pkts.length (cap - 1) ∧
    (recvList cap (initNet slots0, 0, 0) pkts).2.2
      = pkts.length - (cap - 1) := by
  induction pkts using List.reverseRecOn with
  | nil =>
    refine ⟨?_, rfl, ?_, ?_⟩ <;> simp [recvList, initNet]
  | append_singleton ms pkt ih =>
    obtain ⟨ih1, ih2, ih3, ih4⟩ := ih
    rw [recvList_append_single]
    by_cases hfull : ms.length < cap - 1
    · have hcond : ((recvList cap (initNet slots0, 0, 0) ms).1.rx_head + 1)
          % cap ≠ (recvList cap (initNet slots0, 0, 0) ms).1.rx_tail := by
        rw [ih1, ih2]
        have hmin : min ms.length (cap - 1) = ms.length := by omega
        rw [hmin, Nat.mod_eq_of_lt (by omega)]
        omega
      unfold receive_packet
      rw [if_neg hcond]
      refine ⟨?_, ih2, ?_, ?_⟩
      · show ((recvList cap (initNet slots0, 0, 0) ms).1.rx_head + 1) % cap
          = min (ms ++ [pkt]).length (cap - 1)
        rw [ih1]
        have hmin : min ms.length (cap - 1) = ms.length := by omega
        rw [hmin, Nat.mod_eq_of_lt (by omega), List.length_append]
        simp
        omega
      · show (recvList cap (initNet slots0, 0, 0) ms).2.1 + 1 = _
        rw [ih3, List.length_append]
        simp
        omega
      · show (recvList cap (initNet slots0, 0, 0) ms).2.2 = _
        rw [ih4, List.length_append]
        simp
        omega
    · have hcond : ((recvList cap (initNet slots0, 0, 0) ms).1.rx_head + 1)
          % cap = (recvList cap (initNet slots0, 0, 0) ms).1.rx_tail := by
        rw [ih1, ih2]
        have hmin : min ms.length (cap - 1) = cap - 1 := by omega
        rw [hmin]
        have : cap - 1 + 1 = cap := by omega
        rw [this, Nat.mod_self]
      unfold receive_packet
      rw [if_pos hcond]
      refine ⟨?_, ih2, ?_, ?_⟩
      · show (recvList cap (initNet slots0, 0, 0) ms).1.rx_head = _
        rw [ih1, List.length_append]
        simp
        omega
      · show (recvList cap (initNet slots0, 0, 0) ms).2.1 = _
        rw [ih3, List.length_append]
        simp
        omega
      · show (recvList cap (initNet slots0, 0, 0) ms).2.2 + 1 = _
        rw [ih4, List.length_append]
        simp
        omega

/-! Helper lemmas about the scheduler. -/

/-- `submit` appends at the tail of the queue of the task band. -/
theorem getQueue_schedSubmit_band (s : MLFQScheduler) (t : TaskContext) :
    getQueue (schedSubmit s t) (bandOf t.priority)
      = getQueue s (bandOf t.priority) ++ [t] := by
  obtain ⟨q0, q1, q2, q3⟩ := s
  obtain ⟨i, pr, st, w, dl, ud, dp, cpu⟩ := t
  cases pr <;> rfl

/-- `submit` leaves the other three band queues untouched. -/
theorem getQueue_schedSubmit_other (s : MLFQScheduler) (t : TaskContext)
    (j : Nat) (h4 : j < 4) (hj : j ≠ bandOf t.priority) :
    getQueue (schedSubmit s t) j = getQueue s j := by
  obtain ⟨q0, q1, q2, q3⟩ := s
  obtain ⟨i, pr, st, w, dl, ud, dp, cpu⟩ := t
  cases pr <;> simp only [bandOf] at hj <;>
    interval_cases j <;> first | rfl | exact absurd rfl hj

/-! The claims. -/

/-- Claim C10: for every id absent from the registry, `complete_task`
returns the empty list and leaves the graph entirely unchanged (the guard
`if not contains tid` returns early; no entry is read or written and no
panic is raised — the embedding is a total function). -/
theorem complete_task_unknown_id (g : TaskGraph) (tid : TaskID)
    (h : lookupTask g tid = none) :
    complete_task g tid = ([], g) := by
  unfold complete_task
  rw [h]

/-- Witness for C10 at a concrete input: the empty registry and id 42. -/
theorem complete_task_unknown_id_witness :
    complete_task ([] : TaskGraph) 42 = ([], ([] : TaskGraph)) :=
  complete_task_unknown_id [] 42 rfl

/-- Claim C8: the log buffer built by any sequence of pushes from empty
holds the last `max_buffer_size` (10 000) messages in insertion order —
hence its size never exceeds the capacity and after more than `capacity`
pushes it holds exactly the last `capacity` entries; and when message
formatting fails, the fixed diagnostic string is stored instead. -/
theorem log_buffer_eviction (entries : List LogEntry) (buf : List LogEntry)
    (lvl : LogLevel) :
    List.foldl logPush [] entries
      = entries.drop (entries.length - max_buffer_size) ∧
    (List.foldl logPush [] entries).length
      = min entries.length max_buffer_size ∧
    loggerLog buf lvl none
      = logPush buf { level := lvl, message := "LOG FORMAT ERROR" } := by
  refine ⟨logFold entries, ?_, rfl⟩
  rw [logFold, List.length_drop]
  omega

/-- Counterexample to claim C3: `add_task` on an id already present does
not fail and does not leave the registry unchanged — it overwrites the
existing entry (`tasks_[t->id] = t`). Here task 1 is registered and a
second context with id 1 replaces it. -/
theorem add_task_duplicate_overwrites :
    containsTask gOneFix 1 = true ∧
    lookupTask (add_task gOneFix tDupFix) 1 = some tDupFix ∧
    add_task gOneFix tDupFix ≠ gOneFix := by decide

/-- Claim C3 as amended: `add_task` unconditionally registers the context
under its id (overwriting any existing entry rather than failing with
DUPLICATE_ID) and leaves every other id untouched; a freshly constructed
context starts PENDING with unsatisfied-count 0. -/
theorem add_task_registers (g : TaskGraph) (t : TaskContext) (i : TaskID)
    (p : Priority) (w : WorkResult) :
    lookupTask (add_task g t) t.id = some t ∧
    (∀ j, j ≠ t.id → lookupTask (add_task g t) j = lookupTask g j) ∧
    (mkTaskContext i p w).state = TaskState.PENDING ∧
    (mkTaskContext i p w).unsatisfied_deps = 0 :=
  ⟨lookupTask_add_task_self g t,
   fun j hj => lookupTask_add_task_other g t j hj, rfl, rfl⟩

/-- Witness for the amended C3 at a concrete input. -/
theorem add_task_registers_witness :
    lookupTask (add_task gOneFix tDupFix) 5 = lookupTask gOneFix 5 :=
  (add_task_registers gOneFix tDupFix 1 Priority.LOW
    WorkResult.ok).2.1 5 (by decide)

/-- Counterexample to claim C4: `add_dependency` sets the child state to
BLOCKED unconditionally — even when the child is already terminal. Here
child 2 is COMPLETED, yet after `add_dependency 1 2` it is BLOCKED,
contradicting the claim that a terminal child keeps its state. -/
theorem add_dependency_blocks_terminal :
    (lookupTask gTermFix 2).map TaskContext.state
      = some TaskState.COMPLETED ∧
    (lookupTask (add_dependency gTermFix 1 2) 2).map TaskContext.state
      = some TaskState.BLOCKED := by decide

/-- Claim C4 as amended: when either id is absent `add_dependency` silently
leaves the graph unchanged (no UNKNOWN_TASK failure is surfaced — the
function returns void); when both are present it appends child to the
parent dependents, parent to the child dependencies, increments the child
unsatisfied-count by one (mod `2 ^ 32`) and sets the child state to BLOCKED
unconditionally, terminal or not; all other ids are untouched. -/
theorem add_dependency_behavior (g : TaskGraph) (parent child : TaskID)
    (tp tc : TaskContext) :
    ((containsTask g parent = false ∨ containsTask g child = false) →
      add_dependency g parent child = g) ∧
    (lookupTask g parent = some tp → lookupTask g child = some tc →
     parent ≠ child →
      lookupTask (add_dependency g parent child) parent
        = some { tp with dependents := tp.dependents ++ [child] } ∧
      lookupTask (add_dependency g parent child) child
        = some { tc with
                 dependencies := tc.dependencies ++ [parent]
                 unsatisfied_deps := (tc.unsatisfied_deps + 1) % 2 ^ 32
                 state := TaskState.BLOCKED } ∧
      (∀ j, j ≠ parent → j ≠ child →
        lookupTask (add_dependency g parent child) j = lookupTask g j)) := by
  constructor
  · intro h
    unfold add_dependency
    rcases h with h | h <;> rw [h] <;> simp
  · intro hp hc hpc
    have hcond : (containsTask g parent && containsTask g child) = true := by
      unfold containsTask
      rw [hp, hc]
      rfl
    unfold add_dependency
    rw [if_pos hcond]
    refine ⟨?_, ?_, ?_⟩
    · rw [lookupTask_updateTask, if_neg hpc,
        lookupTask_updateTask, if_pos rfl, hp]
      rfl
    · rw [lookupTask_updateTask, if_pos rfl, lookupTask_updateTask,
        if_neg (fun h : child = parent => hpc h.symm), hc]
      rfl
    · intro j hjp hjc
      rw [lookupTask_updateTask, if_neg hjc, lookupTask_updateTask,
        if_neg hjp]

/-- Witness for the amended C4 at a concrete input: both ids present. -/
theorem add_dependency_behavior_witness :
    lookupTask (add_dependency gFix 1 2) 3 = lookupTask gFix 3 :=
  ((add_dependency_behavior gFix 1 2 t1fix t2fix).2 (by decide) (by decide)
    (by decide)).2.2 3 (by decide) (by decide)

/-- Claim C2: `submit` appends at the tail of the band queue selected by
the priority (REALTIME → 0, HIGH → 1, NORMAL → 2, LOW → 3) leaving the
other bands alone, and `get_next` pops the head of the lowest-index
non-empty queue — returning nothing exactly when all four queues are empty
— so dequeue order is FIFO within a band and strict priority across
bands. -/
theorem scheduler_priority_fifo (s : MLFQScheduler) (t : TaskContext)
    (i : Nat) :
    (bandOf Priority.REALTIME = 0 ∧ bandOf Priority.HIGH = 1 ∧
     bandOf Priority.NORMAL = 2 ∧ bandOf Priority.LOW = 3) ∧
    getQueue (schedSubmit s t) (bandOf t.priority)
      = getQueue s (bandOf t.priority) ++ [t] ∧
    (∀ j, j < 4 → j ≠ bandOf t.priority →
      getQueue (schedSubmit s t) j = getQueue s j) ∧
    ((∀ j, j < 4 → getQueue s j = []) → get_next s = (none, s)) ∧
    (i < 4 → (∀ j, j < i → getQueue s j = []) →
     ∀ x rest, getQueue s i = x :: rest →
      (get_next s).1 = some x ∧
      getQueue (get_next s).2 i = rest ∧
      (∀ j, j < 4 → j ≠ i → getQueue (get_next s).2 j = getQueue s j)) := by
  refine ⟨⟨rfl, rfl, rfl, rfl⟩, getQueue_schedSubmit_band s t,
    fun j h4 hj => getQueue_schedSubmit_other s t j h4 hj, ?_, ?_⟩
  · intro hall
    obtain ⟨q0, q1, q2, q3⟩ := s
    have h0 : q0 = [] := hall 0 (by omega)
    have h1 : q1 = [] := hall 1 (by omega)
    have h2 : q2 = [] := hall 2 (by omega)
    have h3 : q3 = [] := hall 3 (by omega)
    subst h0 h1 h2 h3
    rfl
  · intro hi hlt x rest hq
    obtain ⟨q0, q1, q2, q3⟩ := s
    interval_cases i
    · have hx : q0 = x :: rest := hq
      subst hx
      refine ⟨rfl, rfl, ?_⟩
      intro j h4 hj
      interval_cases j <;> first | rfl | exact absurd rfl hj
    · have h0 : q0 = [] := hlt 0 (by omega)
      have hx : q1 = x :: rest := hq
      subst h0 hx
      refine ⟨rfl, rfl, ?_⟩
      intro j h4 hj
      interval_cases j <;> first | rfl | exact absurd rfl hj
    · have h0 : q0 = [] := hlt 0 (by omega)
      have h1 : q1 = [] := hlt 1 (by omega)
      have hx : q2 = x :: rest := hq
      subst h0 h1 hx
      refine ⟨rfl, rfl, ?_⟩
      intro j h4 hj
      interval_cases j <;> first | rfl | exact absurd rfl hj
    · have h0 : q0 = [] := hlt 0 (by omega)
      have h1 : q1 = [] := hlt 1 (by omega)
      have h2 : q2 = [] := hlt 2 (by omega)
      have hx : q3 = x :: rest := hq
      subst h0 h1 h2 hx
      refine ⟨rfl, rfl, ?_⟩
      intro j h4 hj
      interval_cases j <;> first | rfl | exact absurd rfl hj

/-- Witness for C2 at a concrete input: only the NORMAL band holds a task,
so `get_next` skips bands 0 and 1 and pops it. -/
theorem scheduler_priority_fifo_witness :
    (get_next schedFix).1 = some tSchedFix ∧
    getQueue (get_next schedFix).2 2 = [] :=
  have h := (scheduler_priority_fifo schedFix tSchedFix 2).2.2.2.2
    (by decide) (by intro j hj; interval_cases j <;> rfl) tSchedFix []
    (by decide)
  ⟨h.1, h.2.1⟩

/-- Claim C1: for every registered task id, `complete_task` decrements the
unsatisfied-dep counter of each dependent (`fetch_sub(1)` with `u32`
wraparound), transitions to READY and returns exactly those dependents
whose counter reached zero by that decrement (old value 1), leaves every
non-dependent untouched — and the release is the same whether the
completed task was recorded COMPLETED or FAILED, since the registered
outcome is never read. Stated for a well-formed registry: dependents are
distinct, registered, and the task is not its own dependent. -/
theorem complete_task_releases (g : TaskGraph) (tid : TaskID)
    (t : TaskContext)
    (hl : lookupTask g tid = some t)
    (hnd : t.dependents.Nodup)
    (hself : tid ∉ t.dependents)
    (hreg : ∀ d ∈ t.dependents, (lookupTask g d).isSome) :
    (∀ d ∈ t.dependents,
      lookupTask (complete_task g tid).2 d = (lookupTask g d).map decTask) ∧
    (∀ j, j ∉ t.dependents →
      lookupTask (complete_task g tid).2 j = lookupTask g j) ∧
    (complete_task g tid).1 = t.dependents.filterMap (readyOf g) ∧
    (complete_task (updateTask g tid
        (fun u => { u with state := TaskState.COMPLETED })) tid).1
      = (complete_task (updateTask g tid
        (fun u => { u with state := TaskState.FAILED })) tid).1 := by
  have hct : complete_task g tid = t.dependents.foldl releaseStep ([], g) := by
    unfold complete_task
    rw [hl]
  refine ⟨?_, ?_, ?_, ?_⟩
  · intro d hd
    rw [hct]
    exact releaseFold_mem t.dependents g [] d hnd hreg hd
  · intro j hj
    rw [hct]
    exact releaseFold_not_mem t.dependents g [] j hj
  · rw [hct]
    simpa using releaseFold_released t.dependents g [] hnd hreg
  · have key : ∀ f : TaskContext → TaskContext,
        (∀ u, (f u).dependents = u.dependents) →
        (complete_task (updateTask g tid f) tid).1
          = t.dependents.filterMap (readyOf g) := by
      intro f hf
      have hl2 : lookupTask (updateTask g tid f) tid = some (f t) := by
        rw [lookupTask_updateTask, if_pos rfl, hl]
        rfl
      have hreg2 : ∀ d ∈ t.dependents,
          (lookupTask (updateTask g tid f) d).isSome := by
        intro d hd
        have hdt : d ≠ tid := fun h => hself (h ▸ hd)
        rw [lookupTask_updateTask, if_neg hdt]
        exact hreg d hd
      have hct2 : complete_task (updateTask g tid f) tid
          = t.dependents.foldl releaseStep ([], updateTask g tid f) := by
        unfold complete_task
        rw [hl2]
        show List.foldl releaseStep ([], updateTask g tid f) (f t).dependents
          = List.foldl releaseStep ([], updateTask g tid f) t.dependents
        rw [hf t]
      rw [hct2]
      have hrel := releaseFold_released t.dependents (updateTask g tid f) []
        hnd hreg2
      rw [hrel, List.nil_append]
      apply List.filterMap_congr
      intro d hd
      have hdt : d ≠ tid := fun h => hself (h ▸ hd)
      unfold readyOf
      rw [lookupTask_updateTask, if_neg hdt]
    rw [key (fun u => { u with state := TaskState.COMPLETED }) (fun u => rfl),
      key (fun u => { u with state := TaskState.FAILED }) (fun u => rfl)]

/-- Witness for C1 at a concrete graph (1 → 2 with counter 1, 1 → 3 with
counter 2): dependent 2 is decremented to zero and released READY. -/
theorem complete_task_releases_witness :
    lookupTask (complete_task gFix 1).2 2 = (lookupTask gFix 2).map decTask ∧
    (complete_task gFix 1).1 = t1fix.dependents.filterMap (readyOf gFix) :=
  have h := complete_task_releases gFix 1 t1fix (by decide) (by decide)
    (by decide) (by decide)
  ⟨h.1 2 (by decide), h.2.2.1⟩

/-- Counterexample to claim C5: the worker barrier is
`catch (const std::exception& e)` only, so a thrown value not derived from
`std::exception` is a runtime failure the worker does not catch. On a
concrete graph where the work of task 1 throws such a value, the worker
does not set FAILED (the task is left RUNNING), logs nothing at ERROR,
accumulates no cpu time, releases no dependents (dependent 2 keeps its
unsatisfied counter), and the failure escapes the barrier — refuting the
claim that every runtime failure is caught, recorded and released. -/
theorem worker_barrier_misses_foreign_throw :
    (runTaskStep gForeignFix 1 5).2.2.2 = true ∧
    (lookupTask (runTaskStep gForeignFix 1 5).1 1).map TaskContext.state
      = some TaskState.RUNNING ∧
    (lookupTask (runTaskStep gForeignFix 1 5).1 1).map
      TaskContext.cpu_time_ns = some 0 ∧
    (runTaskStep gForeignFix 1 5).2.1 = [] ∧
    (runTaskStep gForeignFix 1 5).2.2.1 = none ∧
    (lookupTask (runTaskStep gForeignFix 1 5).1 2).map
      TaskContext.unsatisfied_deps = some 1 := by decide

/-- Claim C5 as amended: the worker barrier catches exactly the failures
derived from `std::exception`. A normal return records COMPLETED with
nothing logged; a caught failure records FAILED with the reason logged at
ERROR (the single-step embedding performs no retry); in both those cases
the elapsed time is accumulated into the cpu-time counter (mod `2 ^ 64`)
and the dependents are then released through `complete_task`, the released
list read from the pre-step graph. A thrown value of any other type
escapes the barrier uncaught: the task is left RUNNING, no time is
accumulated, nothing is logged, no dependents are released and every other
registry entry is untouched. -/
theorem worker_failure_barrier (g : TaskGraph) (tid : TaskID)
    (t : TaskContext) (elapsed : Nat)
    (hl : lookupTask g tid = some t)
    (hnd : t.dependents.Nodup)
    (hself : tid ∉ t.dependents)
    (hreg : ∀ d ∈ t.dependents, (lookupTask g d).isSome) :
    (t.work = WorkResult.ok →
      lookupTask (runTaskStep g tid elapsed).1 tid
        = some { t with
                 state := TaskState.COMPLETED
                 cpu_time_ns := (t.cpu_time_ns + elapsed) % 2 ^ 64 } ∧
      (runTaskStep g tid elapsed).2.2.1 = none ∧
      (runTaskStep g tid elapsed).2.2.2 = false ∧
      (runTaskStep g tid elapsed).2.1
        = t.dependents.filterMap (readyOf g)) ∧
    (∀ m, t.work = WorkResult.fail m →
      lookupTask (runTaskStep g tid elapsed).1 tid
        = some { t with
                 state := TaskState.FAILED
                 cpu_time_ns := (t.cpu_time_ns + elapsed) % 2 ^ 64 } ∧
      (runTaskStep g tid elapsed).2.2.1
        = some (LogLevel.ERROR,
            "Task " ++ toString tid ++ " Failed: " ++ m) ∧
      (runTaskStep g tid elapsed).2.2.2 = false ∧
      (runTaskStep g tid elapsed).2.1
        = t.dependents.filterMap (readyOf g)) ∧
    (t.work = WorkResult.foreign →
      (runTaskStep g tid elapsed).2.2.2 = true ∧
      lookupTask (runTaskStep g tid elapsed).1 tid
        = some { t with state := TaskState.RUNNING } ∧
      (runTaskStep g tid elapsed).2.1 = [] ∧
      (runTaskStep g tid elapsed).2.2.1 = none ∧
      (∀ j, j ≠ tid →
        lookupTask (runTaskStep g tid elapsed).1 j = lookupTask g j)) := by
  have main : ∀ (fs : TaskState),
      let g2 := updateTask (updateTask g tid
        (fun u => { u with state := TaskState.RUNNING })) tid
        (fun u => { u with
                    state := fs
                    cpu_time_ns := (u.cpu_time_ns + elapsed) % 2 ^ 64 })
      lookupTask (complete_task g2 tid).2 tid
        = some { t with
                 state := fs
                 cpu_time_ns := (t.cpu_time_ns + elapsed) % 2 ^ 64 } ∧
      (complete_task g2 tid).1 = t.dependents.filterMap (readyOf g) := by
    intro fs
    set T : TaskContext :=
      { t with
        state := fs
        cpu_time_ns := (t.cpu_time_ns + elapsed) % 2 ^ 64 } with hT
    intro g2
    have hlg : lookupTask g2 tid = some T := by
      show lookupTask (updateTask _ tid _) tid = some T
      rw [lookupTask_updateTask, if_pos rfl, lookupTask_updateTask,
        if_pos rfl, hl]
      rfl
    have hdeps : T.dependents = t.dependents := rfl
    have hct : complete_task g2 tid = t.dependents.foldl releaseStep ([], g2) := by
      unfold complete_task
      rw [hlg, hdeps]
    have hreg2 : ∀ d ∈ t.dependents, (lookupTask g2 d).isSome := by
      intro d hd
      have hdt : d ≠ tid := fun h => hself (h ▸ hd)
      show (lookupTask (updateTask _ tid _) d).isSome
      rw [lookupTask_updateTask, if_neg hdt, lookupTask_updateTask,
        if_neg hdt]
      exact hreg d hd
    constructor
    · rw [hct, releaseFold_not_mem t.dependents g2 [] tid hself, hlg]
    · rw [hct, releaseFold_released t.dependents g2 [] hnd hreg2,
        List.nil_append]
      apply List.filterMap_congr
      intro d hd
      have hdt : d ≠ tid := fun h => hself (h ▸ hd)
      unfold readyOf
      show (lookupTask (updateTask _ tid _) d).bind _ = _
      rw [lookupTask_updateTask, if_neg hdt, lookupTask_updateTask,
        if_neg hdt]
  cases hw : t.work with
  | ok =>
    have hrun : runTaskStep g tid elapsed =
        ((complete_task (updateTask (updateTask g tid
            (fun u => { u with state := TaskState.RUNNING })) tid
            (fun u => { u with
                        state := TaskState.COMPLETED
                        cpu_time_ns := (u.cpu_time_ns + elapsed) % 2 ^ 64 }))
          tid).2,
         (complete_task (updateTask (updateTask g tid
            (fun u => { u with state := TaskState.RUNNING })) tid
            (fun u => { u with
                        state := TaskState.COMPLETED
                        cpu_time_ns := (u.cpu_time_ns + elapsed) % 2 ^ 64 }))
          tid).1,
         none, false) := by
      simp only [runTaskStep, hl, hw]
    obtain ⟨hm1, hm2⟩ := main TaskState.COMPLETED
    refine ⟨fun _ => ⟨?_, ?_, ?_, ?_⟩, fun m hm => ?_, fun hf => ?_⟩
    · rw [hrun, ← hw]
      exact hm1
    · rw [hrun]
    · rw [hrun]
    · rw [hrun]
      exact hm2
    · exact WorkResult.noConfusion hm
    · exact WorkResult.noConfusion hf
  | fail m0 =>
    have hrun : runTaskStep g tid elapsed =
        ((complete_task (updateTask (updateTask g tid
            (fun u => { u with state := TaskState.RUNNING })) tid
            (fun u => { u with
                        state := TaskState.FAILED
                        cpu_time_ns := (u.cpu_time_ns + elapsed) % 2 ^ 64 }))
          tid).2,
         (complete_task (updateTask (updateTask g tid
            (fun u => { u with state := TaskState.RUNNING })) tid
            (fun u => { u with
                        state := TaskState.FAILED
                        cpu_time_ns := (u.cpu_time_ns + elapsed) % 2 ^ 64 }))
          tid).1,
         some (LogLevel.ERROR,
           "Task " ++ toString tid ++ " Failed: " ++ m0),
         false) := by
      simp only [runTaskStep, hl, hw]
    obtain ⟨hm1, hm2⟩ := main TaskState.FAILED
    refine ⟨fun hok => ?_, fun m hm => ?_, fun hf => ?_⟩
    · exact WorkResult.noConfusion hok
    · cases hm
      refine ⟨?_, ?_, ?_, ?_⟩
      · rw [hrun, ← hw]
        exact hm1
      · rw [hrun]
      · rw [hrun]
      · rw [hrun]
        exact hm2
    · exact WorkResult.noConfusion hf
  | foreign =>
    have hrun : runTaskStep g tid elapsed =
        (updateTask g tid (fun u => { u with state := TaskState.RUNNING }),
         [], none, true) := by
      simp only [runTaskStep, hl, hw]
    refine ⟨fun hok => ?_, fun m hm => ?_, fun _ => ⟨?_, ?_, ?_, ?_, ?_⟩⟩
    · exact WorkResult.noConfusion hok
    · exact WorkResult.noConfusion hm
    · rw [hrun]
    · rw [hrun, ← hw, lookupTask_updateTask, if_pos rfl, hl]
      rfl
    · rw [hrun]
    · rw [hrun]
    · intro j hj
      rw [hrun, lookupTask_updateTask, if_neg hj]

/-- Witness for the amended C5 at a concrete graph: task 1 throws a
`std::exception`-derived failure, ends FAILED with the reason logged at
ERROR. -/
theorem worker_failure_barrier_witness :
    lookupTask (runTaskStep gFailFix 1 5).1 1
      = some { tFailFix with
               state := TaskState.FAILED
               cpu_time_ns := (tFailFix.cpu_time_ns + 5) % 2 ^ 64 } ∧
    (runTaskStep gFailFix 1 5).2.2.1
      = some (LogLevel.ERROR,
          "Task " ++ toString (1 : TaskID) ++ " Failed: " ++ "boom") :=
  have h := worker_failure_barrier gFailFix 1 tFailFix 5 (by decide)
    (by decide) (by decide) (by decide)
  ⟨(h.2.1 ("boom") rfl).1, (h.2.1 ("boom") rfl).2.1⟩

/-- Claim C6: `receive_packet` computes `next = (head + 1) % cap`; when
`next = tail` it drops the packet (state unchanged) and returns the
ring-full warning; otherwise it writes `min (len data) 128` truncated bytes
into the head slot (other slots untouched) and advances the head.
Consequently `N` receives into an initially empty ring with no concurrent
pop store exactly `min N (cap − 1)` packets, drop exactly `N − (cap − 1)`,
and leave depth `min N (cap − 1)` (the source fixes `cap` to
`LEVIATHAN_NET_RING_SIZE = 2048`). -/
theorem ring_receive_drop_semantics (cap : Nat) (hcap : 1 ≤ cap)
    (n : NetworkInterface) (newId : Nat) (data : List Nat)
    (slots0 : Nat → Packet) (pkts : List (Nat × List Nat)) :
    ((n.rx_head + 1) % cap = n.rx_tail →
      receive_packet cap n newId data
        = (n, some ("[NET] RX Ring Buffer Overflow! Dropping packet."))) ∧
    ((n.rx_head + 1) % cap ≠ n.rx_tail →
      (receive_packet cap n newId data).1.rx_head = (n.rx_head + 1) % cap ∧
      (receive_packet cap n newId data).1.rx_tail = n.rx_tail ∧
      ((receive_packet cap n newId data).1.rx_ring n.rx_head).size
        = min data.length 128 ∧
      (∀ i, i < min data.length 128 →
        ((receive_packet cap n newId data).1.rx_ring n.rx_head).payload i
          = data.getD i 0) ∧
      (∀ j, j ≠ n.rx_head →
        (receive_packet cap n newId data).1.rx_ring j = n.rx_ring j) ∧
      (receive_packet cap n newId data).2 = none) ∧
    ((recvList cap (initNet slots0, 0, 0) pkts).2.1
        = min pkts.length (cap - 1) ∧
     (recvList cap (initNet slots0, 0, 0) pkts).2.2
        = pkts.length - (cap - 1) ∧
     netDepth cap (recvList cap (initNet slots0, 0, 0) pkts).1
        = min pkts.length (cap - 1)) := by
  obtain ⟨h1, h2, h3, h4⟩ := recvList_from_empty cap hcap slots0 pkts
  refine ⟨?_, ?_, h3, h4, ?_⟩
  · intro h
    unfold receive_packet
    rw [if_pos h]
  · intro h
    have hred : receive_packet cap n newId data =
        ({ rx_ring := fun i => if i = n.rx_head then
             { n.rx_ring n.rx_head with
               id := newId
               size := min data.length 128
               payload := fun i =>
                 if i < min data.length 128 then data.getD i 0
                 else (n.rx_ring n.rx_head).payload i }
           else n.rx_ring i
           rx_head := (n.rx_head + 1) % cap
           rx_tail := n.rx_tail }, none) := by
      unfold receive_packet
      rw [if_neg h]
    rw [hred]
    refine ⟨rfl, rfl, ?_, ?_, ?_, rfl⟩
    · show (if n.rx_head = n.rx_head then
          { n.rx_ring n.rx_head with
            id := newId
            size := min data.length 128
            payload := fun i2 =>
              if i2 < min data.length 128 then data.getD i2 0
              else (n.rx_ring n.rx_head).payload i2 }
        else n.rx_ring n.rx_head).size = min data.length 128
      rw [if_pos rfl]
    · intro i hi
      show (if n.rx_head = n.rx_head then
          { n.rx_ring n.rx_head with
            id := newId
            size := min data.length 128
            payload := fun i2 =>
              if i2 < min data.length 128 then data.getD i2 0
              else (n.rx_ring n.rx_head).payload i2 }
        else n.rx_ring n.rx_head).payload i = data.getD i 0
      rw [if_pos rfl]
      show (if i < min data.length 128 then data.getD i 0
        else (n.rx_ring n.rx_head).payload i) = data.getD i 0
      rw [if_pos hi]
    · intro j hj
      show (if j = n.rx_head then
          { n.rx_ring n.rx_head with
            id := newId
            size := min data.length 128
            payload := fun i2 =>
              if i2 < min data.length 128 then data.getD i2 0
              else (n.rx_ring n.rx_head).payload i2 }
        else n.rx_ring j) = n.rx_ring j
      rw [if_neg hj]
  · unfold netDepth
    rw [h1, h2, if_pos (Nat.zero_le _)]
    omega

/-- Witness for C6 at a concrete input: three packets into the empty
2048-slot ring. -/
theorem ring_receive_drop_semantics_witness :
    (recvList 2048 (initNet (fun _ => blankPacket), 0, 0)
       [(1, [5, 6]), (2, []), (3, [7])]).2.1 = min 3 (2048 - 1) ∧
    (recvList 2048 (initNet (fun _ => blankPacket), 0, 0)
       [(1, [5, 6]), (2, []), (3, [7])]).2.2 = 3 - (2048 - 1) :=
  have h := ring_receive_drop_semantics 2048 (by decide)
    (initNet (fun _ => blankPacket)) 0 [] (fun _ => blankPacket)
    [(1, [5, 6]), (2, []), (3, [7])]
  ⟨h.2.2.1, h.2.2.2.1⟩

/-- Counterexample to claim C7: the facade submit of the source takes no
dependency-id list and never applies dependency edges or withholds a
blocked task. On a kernel holding one incomplete task (id 1), the submit
the specification describes, given deps = [1], would leave the new task 2
BLOCKED and enqueue nothing; the code facade instead enqueues task 2
immediately as READY with an empty dependency list. -/
theorem kernel_submit_ignores_deps :
    (submit_task_specModel kFix Priority.NORMAL WorkResult.ok [1]).scheduler
      = emptySched ∧
    (lookupTask (submit_task_specModel kFix Priority.NORMAL
        WorkResult.ok [1]).graph 2).map TaskContext.state
      = some TaskState.BLOCKED ∧
    getQueue (submit_task kFix Priority.NORMAL WorkResult.ok).scheduler 2
      ≠ [] ∧
    (lookupTask (submit_task kFix Priority.NORMAL
        WorkResult.ok).graph 2).map TaskContext.dependencies = some [] ∧
    (lookupTask (submit_task kFix Priority.NORMAL
        WorkResult.ok).graph 2).map TaskContext.state
      = some TaskState.READY := by decide

/-- Claim C7 as amended: `submit_task` takes only a priority and a work
closure (no dependency list exists in its signature); it allocates a fresh
TaskId from the generator, constructs a TaskContext (hence empty
dependency list and zero unsatisfied-count), registers it in the graph,
marks it READY, and unconditionally appends it at the tail of its band
queue; the generator advances by one (mod `2 ^ 64`). -/
theorem kernel_submit_always_enqueues (k : KernelState) (p : Priority)
    (w : WorkResult) :
    lookupTask (submit_task k p w).graph k.id_gen
      = some { mkTaskContext k.id_gen p w with state := TaskState.READY } ∧
    (mkTaskContext k.id_gen p w).dependencies = [] ∧
    (mkTaskContext k.id_gen p w).unsatisfied_deps = 0 ∧
    getQueue (submit_task k p w).scheduler (bandOf p)
      = getQueue k.scheduler (bandOf p)
        ++ [{ mkTaskContext k.id_gen p w with state := TaskState.READY }] ∧
    (∀ j, j < 4 → j ≠ bandOf p →
      getQueue (submit_task k p w).scheduler j = getQueue k.scheduler j) ∧
    (submit_task k p w).id_gen = (k.id_gen + 1) % 2 ^ 64 := by
  refine ⟨?_, rfl, rfl, ?_, ?_, rfl⟩
  · have hT2 : lookupTask (add_task k.graph (mkTaskContext k.id_gen p w))
        k.id_gen = some (mkTaskContext k.id_gen p w) :=
      lookupTask_add_task_self k.graph (mkTaskContext k.id_gen p w)
    show lookupTask (updateTask (add_task k.graph (mkTaskContext k.id_gen p w))
        k.id_gen (fun _ => { mkTaskContext k.id_gen p w with
          state := TaskState.READY })) k.id_gen
      = some { mkTaskContext k.id_gen p w with state := TaskState.READY }
    rw [lookupTask_updateTask, if_pos rfl, hT2]
    rfl
  · exact getQueue_schedSubmit_band k.scheduler _
  · intro j h4 hj
    exact getQueue_schedSubmit_other k.scheduler _ j h4 hj

/-- Witness for the amended C7 at a concrete input. -/
theorem kernel_submit_always_enqueues_witness :
    getQueue (submit_task kFix Priority.HIGH WorkResult.ok).scheduler 0
      = getQueue kFix.scheduler 0 :=
  (kernel_submit_always_enqueues kFix Priority.HIGH
    WorkResult.ok).2.2.2.2.1 0 (by decide) (by decide)

/-- Claim C9: the slab free-list is LIFO — `deallocate p` pushes `p` onto
the free-list head and an immediately following `allocate` pops exactly
`p`; and any sequence of `n` allocations followed by deallocations of the
returned pointers (in any order) brings the live-allocation counter back
to its starting value. -/
theorem slab_lifo_roundtrip (cap n : Nat) (hcap : 1 ≤ cap) (s : SlabState)
    (p : Nat) (hp : p ≠ 0)
    (hs : ∀ q ∈ s.free_list, q ≠ 0)
    (hb : s.allocated_objects < 2 ^ 64) :
    (slabDeallocate s p).free_list = p :: s.free_list ∧
    (slabAllocate cap (slabDeallocate s p)).1 = p ∧
    (∀ qs : List Nat, qs.Perm (allocN cap n s).1 →
      (qs.foldl slabDeallocate (allocN cap n s).2).allocated_objects
        = s.allocated_objects) := by
  obtain ⟨hnz, hinv, hcount, hlen⟩ := allocN_spec cap hcap n s hs hb
  have hd : slabDeallocate s p =
      { s with
        free_list := p :: s.free_list
        allocated_objects :=
          (s.allocated_objects + (2 ^ 64 - 1)) % 2 ^ 64 } := by
    unfold slabDeallocate
    rw [if_neg hp]
  refine ⟨?_, ?_, ?_⟩
  · rw [hd]
  · rw [hd]
    unfold slabAllocate
    simp
  · intro qs hqs
    have hqnz : ∀ x ∈ qs, x ≠ 0 := fun x hx => hnz x (hqs.mem_iff.mp hx)
    have hb2 : (allocN cap n s).2.allocated_objects < 2 ^ 64 := by
      rw [hcount]
      exact Nat.mod_lt _ (by norm_num)
    rw [deallocFold_counter qs _ hqnz hb2, hcount, hqs.length_eq, hlen,
      Nat.mod_add_mod]
    have hkey : s.allocated_objects + n + (2 ^ 64 - 1) * n
        = s.allocated_objects + n * 2 ^ 64 := by
      have h1 : (2 ^ 64 - 1) + 1 = 2 ^ 64 := by norm_num
      calc s.allocated_objects + n + (2 ^ 64 - 1) * n
          = s.allocated_objects + ((2 ^ 64 - 1) + 1) * n := by
            rw [Nat.succ_mul]
            omega
        _ = s.allocated_objects + n * 2 ^ 64 := by
            rw [h1, Nat.mul_comm]
    rw [hkey, Nat.add_mul_mod_self_right, Nat.mod_eq_of_lt hb]

/-- Witness for C9 at a concrete input: a freshly constructed slab with 4
slots per page; deallocating pointer 9 then allocating returns 9, and two
allocations followed by their deallocations restore the counter. -/
theorem slab_lifo_roundtrip_witness :
    (slabAllocate 4 (slabDeallocate (initSlab 4) 9)).1 = 9 ∧
    ((allocN 4 2 (initSlab 4)).1.foldl slabDeallocate
       (allocN 4 2 (initSlab 4)).2).allocated_objects
      = (initSlab 4).allocated_objects :=
  have h := slab_lifo_roundtrip 4 2 (by decide) (initSlab 4) 9 (by decide)
    (by decide) (by decide)
  ⟨h.2.1, h.2.2 (allocN 4 2 (initSlab 4)).1 (List.Perm.refl _)⟩

end Leviathan
